import Mathlib

/-
  Verification of the ReadTheLips media-to-transcript pipeline (src/app.py).

  Shallow embedding: the pure chunk-planning arithmetic of
  `process_and_transcribe` is modelled over ℚ (Python floats treated as exact
  rationals, `math.floor`/`math.ceil` as `Int.floor`/`Int.ceil`); the stateful
  pipeline is modelled as a function from an oracle environment (outcomes of
  each fallible external call) to an execution trace recording the returned
  transcript, the transcription calls made, the chunk ranges extracted, the
  temp files registered, and the cleanup performed in the `finally` block.
-/

namespace ReadTheLips

/-- Python exceptions that the pipeline can see, abstracted by kind. -/
inductive PyError where
  | attributeError
  | permissionError
  | mediaError (msg : String)
  | apiError (msg : String)
  | osError (msg : String)
  deriving DecidableEq, Repr

/-! ## ChunkPlanner arithmetic (src/app.py lines 161-173)

`chunk_duration = max(10, math.floor((SAFETY_BUFFER_MB / file_size_mb) * duration))`
with `SAFETY_BUFFER_MB = 20`; `num_chunks = math.ceil(duration / chunk_duration)`;
chunk `i` spans `[i*chunk_duration, min((i+1)*chunk_duration, duration))`. -/

def chunk_duration (sizeMB durationSeconds : ℚ) : ℤ :=
  max 10 (Int.floor ((20 / sizeMB) * durationSeconds))

def num_chunks (durationSeconds : ℚ) (cd : ℤ) : ℕ :=
  (Int.ceil (durationSeconds / (cd : ℚ))).toNat

def chunk_spec (cd : ℤ) (durationSeconds : ℚ) (i : ℕ) : ℚ × ℚ :=
  ((i : ℚ) * (cd : ℚ), min (((i : ℚ) + 1) * (cd : ℚ)) durationSeconds)

def chunk_plan (sizeMB durationSeconds : ℚ) : List (ℚ × ℚ) :=
  (List.range (num_chunks durationSeconds (chunk_duration sizeMB durationSeconds))).map
    (chunk_spec (chunk_duration sizeMB durationSeconds) durationSeconds)

/-! ## Oracle environment for one `process_and_transcribe` run -/

/-- Outcomes of every external/fallible operation the pipeline performs,
fixed in advance: this is the nondeterminism of one concrete run. -/
structure Env where
  /-- `input_path` argument. -/
  inputPath : String
  /-- `os.path.splitext(input_path)[1].lower()`. -/
  ext : String
  /-- Outcome of the first `video.audio.write_audiofile(...)` attempt. -/
  primaryExtract : Except PyError Unit
  /-- `os.path.exists(audio_path)` after an `AttributeError` in the first attempt. -/
  audioFileCreated : Bool
  /-- Outcome of the fallback `write_audiofile` attempt. -/
  fallbackExtract : Except PyError Unit
  /-- Outcome of `get_file_size_mb(audio_path)` (size in MB). -/
  size : Except PyError ℚ
  /-- Outcome of `AudioFileClip(audio_path).duration`. -/
  duration : Except PyError ℚ
  /-- Outcome of writing chunk `i` (`subclip` + `write_audiofile`). -/
  extractChunk : Nat → Except PyError Unit
  /-- Outcome of `transcribe_chunk(client, path)` for a given path. -/
  transcribe : String → Except PyError String

/-- The filesystem's behaviour at cleanup time, an oracle separate from the
pipeline steps: the `try` body of `process_and_transcribe` never consults it,
only the `finally` block does. -/
structure FsState where
  /-- `os.path.exists(f)` at cleanup time. -/
  pathExists : String → Bool
  /-- Whether `os.remove(f)` in the cleanup loop succeeds. -/
  removeOk : String → Bool

def videoExts : List String := [".mp4", ".mov", ".avi", ".mkv"]

/-- Step 1 of `process_and_transcribe` (lines 123-148): classification by
extension and, for video, audio extraction with the `AttributeError` fallback.
Returns the working audio path and the temp files registered so far.
`temp_files_to_cleanup.append(audio_path)` runs after the extraction
`try`/`except`, so a propagating extraction error registers nothing. -/
def step_extract (env : Env) : Except PyError (String × List String) :=
  if env.ext ∈ videoExts then
    let ap := env.inputPath ++ ".mp3"
    match env.primaryExtract with
    | Except.ok _ => Except.ok (ap, [ap])
    | Except.error PyError.attributeError =>
      if env.audioFileCreated then Except.ok (ap, [ap])
      else
        match env.fallbackExtract with
        | Except.ok _ => Except.ok (ap, [ap])
        | Except.error e => Except.error e
    | Except.error e => Except.error e
  else Except.ok (env.inputPath, [])

/-- `f"{audio_path}_part_{i}.mp3"` (line 175). -/
def chunkName (ap : String) (i : Nat) : String :=
  ap ++ "_part_" ++ toString i ++ ".mp3"

/-- The chunk loop (lines 171-189). Arguments: current index, remaining
iterations, accumulated transcript, temp files, transcription calls, chunk
ranges extracted. Returns (body outcome, temps, calls, ranges). A chunk file
is registered in temps before its extraction is attempted; a transcription
call is recorded when `transcribe_chunk` is invoked, whether or not it fails. -/
def chunkLoop (env : Env) (ap : String) (cd : ℤ) (dur : ℚ) :
    Nat → Nat → String → List String → List String → List (ℚ × ℚ) →
    Except PyError String × List String × List String × List (ℚ × ℚ)
  | _, 0, acc, temps, calls, specs => (Except.ok acc, temps, calls, specs)
  | i, fuel + 1, acc, temps, calls, specs =>
    let fn := chunkName ap i
    let temps2 := temps ++ [fn]
    let specs2 := specs ++ [chunk_spec cd dur i]
    match env.extractChunk i with
    | Except.error e => (Except.error e, temps2, calls, specs2)
    | Except.ok _ =>
      match env.transcribe fn with
      | Except.error e => (Except.error e, temps2, calls ++ [fn], specs2)
      | Except.ok t =>
        chunkLoop env ap cd dur (i + 1) fuel (acc ++ t ++ " ") temps2 (calls ++ [fn]) specs2

/-- Result of the `try` body of `process_and_transcribe`, plus the observable
side effects accumulated up to the exit point. -/
structure BodyOut where
  res : Except PyError String
  temps : List String
  calls : List String
  specs : List (ℚ × ℚ)
  chunkingPath : Bool
  deriving Repr

/-- The `try` body of `process_and_transcribe` (lines 122-192). -/
def body (env : Env) : BodyOut :=
  match step_extract env with
  | Except.error e => ⟨Except.error e, [], [], [], false⟩
  | Except.ok (ap, temps0) =>
    match env.size with
    | Except.error e => ⟨Except.error e, temps0, [], [], false⟩
    | Except.ok s =>
      if s ≤ 25 then
        match env.transcribe ap with
        | Except.error e => ⟨Except.error e, temps0, [ap], [], false⟩
        | Except.ok t => ⟨Except.ok t, temps0, [ap], [], false⟩
      else
        match env.duration with
        | Except.error e => ⟨Except.error e, temps0, [], [], true⟩
        | Except.ok dur =>
          let cd := chunk_duration s dur
          let n := num_chunks dur cd
          match chunkLoop env ap cd dur 0 n "" temps0 [] [] with
          | (r, ts, cs, sp) => ⟨r, ts, cs, sp, true⟩

/-- One cleanup record per registered temp file, in registration order:
(path, number of `os.remove` attempts made, whether the file still exists
afterwards). Lines 199-204: `if os.path.exists(f): try os.remove(f) except: pass`
— a single unretried attempt, failures swallowed. -/
def cleanupRun (fs : FsState) (temps : List String) : List (String × Nat × Bool) :=
  temps.map fun f =>
    (f, (if fs.pathExists f then 1 else 0), fs.pathExists f && !fs.removeOk f)

/-- Observable trace of one `process_and_transcribe` run. `result` is the
return value (`None` on any caught exception), `errorShown` the `st.error`
display emitted by the `except` clause. -/
structure RunTrace where
  result : Option String
  errorShown : Option PyError
  calls : List String
  specs : List (ℚ × ℚ)
  chunkingPath : Bool
  temps : List String
  cleanup : List (String × Nat × Bool)
  deriving Repr

/-- `process_and_transcribe` (src/app.py lines 114-206) as a trace function:
`env` drives the `try` body, `fs` the `finally` cleanup. -/
def process_and_transcribe (env : Env) (fs : FsState) : RunTrace where
  result := match (body env).res with
    | Except.ok t => some t
    | Except.error _ => none
  errorShown := match (body env).res with
    | Except.ok _ => none
    | Except.error e => some e
  calls := (body env).calls
  specs := (body env).specs
  chunkingPath := (body env).chunkingPath
  temps := (body env).temps
  cleanup := cleanupRun fs (body env).temps

/-! ## SpeakerLabeler (src/app.py lines 98-112) -/

/-- `diarize_with_gpt4`: the remote call returns the list of choices
(`response.choices`); `response.choices[0]` on an empty list raises an
`IndexError`, which the surrounding `except` also catches. On any caught
exception the original transcript text is returned unchanged. -/
def diarize_with_gpt4 (remote : Except PyError (List String))
    (transcript_text : String) : String :=
  match remote with
  | Except.ok choices =>
    match choices with
    | [] => transcript_text
    | c :: _ => c
  | Except.error _ => transcript_text

/-! ## Tab-1 upload handler (src/app.py lines 218-263) -/

/-- Python truthiness of the value `process_and_transcribe` hands back
(`None` and the empty string are both falsy). -/
def pyTruthy : Option String → Bool
  | none => false
  | some s => !(s == "")

/-- Outcome of deleting the uploaded temp file once. -/
inductive DeleteOutcome where
  | success
  | permissionError
  | otherError
  deriving DecidableEq, Repr

/-- The retry loop of lines 245-254 with `fuel` iterations left at attempt
index `i`: remove, break on success, sleep and retry on `PermissionError`,
print and break on anything else. Returns (attempts made, deleted). -/
def robust_delete_go (o : Nat → DeleteOutcome) : Nat → Nat → Nat × Bool
  | _, 0 => (0, false)
  | i, fuel + 1 =>
    match o i with
    | DeleteOutcome.success => (1, true)
    | DeleteOutcome.otherError => (1, false)
    | DeleteOutcome.permissionError =>
      let r := robust_delete_go o (i + 1) fuel
      (r.1 + 1, r.2)

/-- `max_retries = 3` deletion loop for the uploaded temp file (lines 244-254). -/
def robust_delete (o : Nat → DeleteOutcome) : Nat × Bool :=
  robust_delete_go o 0 3

/-- Lines 256-263: `transcript_result` as computed by the tab-1 handler from
the raw return value of `process_and_transcribe` (`if raw_transcript:` — falsy
on `None` and on the empty string — then optional diarization). -/
def tab1_result (enableDiarization : Bool) (remote : Except PyError (List String)) :
    Option String → Option String
  | none => none
  | some t =>
    if t == "" then none
    else some (if enableDiarization then diarize_with_gpt4 remote t else t)

/-- Line 307: the transcript box and download button render iff
`transcript_result` is truthy. -/
def displayed (transcript_result : Option String) : Bool :=
  pyTruthy transcript_result

/-! ## Derived shapes of a successful chunk loop -/

/-- The transcript accumulation of lines 186: each fragment is followed by a
single space (`full_transcript += chunk_text + " "`), including the last. -/
def trailing_join : List String → String
  | [] => ""
  | t :: ts => t ++ " " ++ trailing_join ts

/-- Chunk file names produced from index `i` for `fuel` further chunks. -/
def chunkNames (ap : String) : Nat → Nat → List String
  | _, 0 => []
  | i, fuel + 1 => chunkName ap i :: chunkNames ap (i + 1) fuel

/-- Chunk time ranges from index `i` for `fuel` further chunks. -/
def chunkSpecsFrom (cd : ℤ) (dur : ℚ) : Nat → Nat → List (ℚ × ℚ)
  | _, 0 => []
  | i, fuel + 1 => chunk_spec cd dur i :: chunkSpecsFrom cd dur (i + 1) fuel


/-! ## Concrete environments used by witnesses and counterexamples -/

/-- A run over a 30 MB, 20 s audio upload in which every external call
succeeds: chunk duration `max(10, ⌊(20/30)·20⌋) = 13`, two chunks,
transcribed as "a" and "b". -/
def baseEnv : Env where
  inputPath := "input"
  ext := ".mp3"
  primaryExtract := Except.ok ()
  audioFileCreated := true
  fallbackExtract := Except.ok ()
  size := Except.ok 30
  duration := Except.ok 20
  extractChunk := fun _ => Except.ok ()
  transcribe := fun fn => Except.ok (if fn == "input_part_0.mp3" then "a" else "b")

/-- A filesystem in which every temp file exists at cleanup time and every
deletion succeeds. -/
def fsAllOk : FsState where
  pathExists := fun _ => true
  removeOk := fun _ => true

/-- A filesystem in which every temp file exists at cleanup time but every
`os.remove` fails with `PermissionError` (transient lock contention). -/
def fsLocked : FsState where
  pathExists := fun _ => true
  removeOk := fun _ => false

/-- A 10 MB audio upload: the small-file bypass. -/
def envSmall : Env := { baseEnv with size := Except.ok 10 }

/-- A run whose second chunk transcription fails with a quota rejection. -/
def envQuota : Env :=
  { baseEnv with
    transcribe := fun fn =>
      if fn == "input_part_1.mp3" then Except.error (PyError.apiError "quota")
      else Except.ok "a" }

/-- A large file with zero duration. -/
def envZeroDur : Env := { baseEnv with duration := Except.ok 0 }

/-- A working audio artifact of size 0 MB. -/
def envZeroSize : Env :=
  { baseEnv with size := Except.ok 0, transcribe := fun _ => Except.ok "hello" }

/-- A run that aborts because the audio container is unreadable. -/
def envUnreadable : Env :=
  { baseEnv with duration := Except.error (PyError.mediaError "unreadable") }

/-- A 26 MB file of zero duration: chunking path, empty plan. -/
def envEmptyOut : Env :=
  { baseEnv with size := Except.ok 26, duration := Except.ok 0 }


/-! ## Arithmetic facts about the chunk plan -/

lemma chunk_duration_ge_ten (s d : ℚ) : 10 ≤ chunk_duration s d :=
  le_max_left _ _

lemma chunk_duration_pos (s d : ℚ) : 0 < chunk_duration s d :=
  lt_of_lt_of_le (by norm_num) (chunk_duration_ge_ten s d)

lemma ceil_div_pos (d : ℚ) (cd : ℤ) (hcd : 0 < cd) (hd : 0 < d) :
    0 < Int.ceil (d / (cd : ℚ)) :=
  Int.ceil_pos.mpr (div_pos hd (by exact_mod_cast hcd))

lemma num_chunks_pos (d : ℚ) (cd : ℤ) (hcd : 0 < cd) (hd : 0 < d) :
    0 < num_chunks d cd := by
  have h := ceil_div_pos d cd hcd hd
  unfold num_chunks
  omega

lemma num_chunks_cast (d : ℚ) (cd : ℤ) (hcd : 0 < cd) (hd : 0 < d) :
    ((num_chunks d cd : ℕ) : ℚ) = ((Int.ceil (d / (cd : ℚ)) : ℤ) : ℚ) := by
  have h := ceil_div_pos d cd hcd hd
  unfold num_chunks
  have h2 : ((Int.ceil (d / (cd : ℚ))).toNat : ℤ) = Int.ceil (d / (cd : ℚ)) :=
    Int.toNat_of_nonneg (le_of_lt h)
  exact_mod_cast congrArg (fun z : ℤ => (z : ℚ)) h2

/-- `numChunks * chunkDuration` reaches the full duration. -/
lemma duration_le_num_chunks_mul (d : ℚ) (cd : ℤ) (hcd : 0 < cd) (hd : 0 < d) :
    d ≤ ((num_chunks d cd : ℕ) : ℚ) * (cd : ℚ) := by
  have hcQ : (0 : ℚ) < (cd : ℚ) := by exact_mod_cast hcd
  have h1 : d / (cd : ℚ) ≤ ((Int.ceil (d / (cd : ℚ)) : ℤ) : ℚ) := Int.le_ceil _
  rw [num_chunks_cast d cd hcd hd]
  exact (div_le_iff₀ hcQ).mp h1

/-- Every chunk index below `numChunks` starts strictly inside the duration. -/
lemma start_lt_duration (d : ℚ) (cd : ℤ) (hcd : 0 < cd) (hd : 0 < d)
    (i : ℕ) (hi : i < num_chunks d cd) :
    (i : ℚ) * (cd : ℚ) < d := by
  have hcQ : (0 : ℚ) < (cd : ℚ) := by exact_mod_cast hcd
  have h1 : ((Int.ceil (d / (cd : ℚ)) : ℤ) : ℚ) - 1 < d / (cd : ℚ) := by
    have := Int.ceil_lt_add_one (α := ℚ) (d / (cd : ℚ))
    linarith
  have h2 : (i : ℚ) ≤ ((num_chunks d cd : ℕ) : ℚ) - 1 := by
    have : (i : ℚ) + 1 ≤ ((num_chunks d cd : ℕ) : ℚ) := by exact_mod_cast hi
    linarith
  rw [num_chunks_cast d cd hcd hd] at h2
  have h3 : (i : ℚ) < d / (cd : ℚ) := lt_of_le_of_lt h2 h1
  exact (lt_div_iff₀ hcQ).mp h3

/-- Any point of `[0, d)` lies in the chunk whose index is `⌊x / cd⌋`. -/
lemma exists_covering_index (d : ℚ) (cd : ℤ) (hcd : 0 < cd) (hd : 0 < d)
    (x : ℚ) (hx0 : 0 ≤ x) (hxd : x < d) :
    ∃ i : ℕ, i < num_chunks d cd ∧
      (i : ℚ) * (cd : ℚ) ≤ x ∧ x < min (((i : ℚ) + 1) * (cd : ℚ)) d := by
  have hcQ : (0 : ℚ) < (cd : ℚ) := by exact_mod_cast hcd
  have hfl : 0 ≤ Int.floor (x / (cd : ℚ)) :=
    Int.floor_nonneg.mpr (div_nonneg hx0 (le_of_lt hcQ))
  refine ⟨(Int.floor (x / (cd : ℚ))).toNat, ?_, ?_, ?_⟩
  case _ =>
    have hcast : (((Int.floor (x / (cd : ℚ))).toNat : ℕ) : ℚ) =
        ((Int.floor (x / (cd : ℚ)) : ℤ) : ℚ) := by
      exact_mod_cast congrArg (fun z : ℤ => (z : ℚ)) (Int.toNat_of_nonneg hfl)
    have hle : (((Int.floor (x / (cd : ℚ))).toNat : ℕ) : ℚ) * (cd : ℚ) ≤ x := by
      rw [hcast]
      exact (le_div_iff₀ hcQ).mp (Int.floor_le _)
    have hlt : (((Int.floor (x / (cd : ℚ))).toNat : ℕ) : ℚ) * (cd : ℚ) <
        ((num_chunks d cd : ℕ) : ℚ) * (cd : ℚ) :=
      lt_of_le_of_lt hle (lt_of_lt_of_le hxd (duration_le_num_chunks_mul d cd hcd hd))
    have : (((Int.floor (x / (cd : ℚ))).toNat : ℕ) : ℚ) < ((num_chunks d cd : ℕ) : ℚ) :=
      (mul_lt_mul_right hcQ).mp hlt
    exact_mod_cast this
  case _ =>
    have hcast : (((Int.floor (x / (cd : ℚ))).toNat : ℕ) : ℚ) =
        ((Int.floor (x / (cd : ℚ)) : ℤ) : ℚ) := by
      exact_mod_cast congrArg (fun z : ℤ => (z : ℚ)) (Int.toNat_of_nonneg hfl)
    rw [hcast]
    exact (le_div_iff₀ hcQ).mp (Int.floor_le _)
  case _ =>
    refine lt_min ?_ hxd
    have hcast : (((Int.floor (x / (cd : ℚ))).toNat : ℕ) : ℚ) =
        ((Int.floor (x / (cd : ℚ)) : ℤ) : ℚ) := by
      exact_mod_cast congrArg (fun z : ℤ => (z : ℚ)) (Int.toNat_of_nonneg hfl)
    rw [hcast]
    have h1 : x / (cd : ℚ) < ((Int.floor (x / (cd : ℚ)) : ℤ) : ℚ) + 1 :=
      Int.lt_floor_add_one _
    exact (div_lt_iff₀ hcQ).mp h1

lemma chunk_plan_length (s d : ℚ) :
    (chunk_plan s d).length = num_chunks d (chunk_duration s d) := by
  unfold chunk_plan
  rw [List.length_map, List.length_range]

lemma chunk_plan_get (s d : ℚ) (i : ℕ) (h : i < (chunk_plan s d).length) :
    (chunk_plan s d).get ⟨i, h⟩ = chunk_spec (chunk_duration s d) d i := by
  unfold chunk_plan at h ⊢
  simp only [List.get_eq_getElem, List.getElem_map, List.getElem_range]


/-! ## Helper lemmas about the pipeline body -/

lemma num_chunks_zero_duration (cd : ℤ) : num_chunks 0 cd = 0 := by
  unfold num_chunks
  simp

lemma process_result (env : Env) (fs : FsState) :
    (process_and_transcribe env fs).result = (match (body env).res with
      | Except.ok t => some t
      | Except.error _ => none) := rfl

lemma process_errorShown (env : Env) (fs : FsState) :
    (process_and_transcribe env fs).errorShown = (match (body env).res with
      | Except.ok _ => none
      | Except.error e => some e) := rfl

lemma process_calls (env : Env) (fs : FsState) :
    (process_and_transcribe env fs).calls = (body env).calls := rfl

lemma process_specs (env : Env) (fs : FsState) :
    (process_and_transcribe env fs).specs = (body env).specs := rfl

lemma process_chunkingPath (env : Env) (fs : FsState) :
    (process_and_transcribe env fs).chunkingPath = (body env).chunkingPath := rfl

lemma process_temps (env : Env) (fs : FsState) :
    (process_and_transcribe env fs).temps = (body env).temps := rfl

lemma process_cleanup (env : Env) (fs : FsState) :
    (process_and_transcribe env fs).cleanup = cleanupRun fs (body env).temps := rfl

/-- On the small-file branch (`size ≤ 25`) the body makes exactly one
transcription call on the whole working artifact, never plans and never
extracts a chunk, and forwards the transcription outcome. -/
lemma body_small_path (env : Env) (ap : String) (ts : List String) (s : ℚ)
    (h1 : step_extract env = Except.ok (ap, ts)) (h2 : env.size = Except.ok s)
    (h3 : s ≤ 25) :
    (body env).calls = [ap] ∧ (body env).chunkingPath = false ∧
    (body env).specs = [] ∧ (body env).temps = ts ∧
    (∀ t, env.transcribe ap = Except.ok t → (body env).res = Except.ok t) ∧
    (∀ e, env.transcribe ap = Except.error e → (body env).res = Except.error e) := by
  unfold body
  rw [h1, h2]
  dsimp only []
  rw [if_pos h3]
  cases htr : env.transcribe ap with
  | ok t =>
    refine ⟨rfl, rfl, rfl, rfl, ?_, ?_⟩
    case _ =>
      intro u hu
      injection hu with h4
      subst h4
      rfl
    case _ =>
      intro e he
      exact Except.noConfusion he
  | error e =>
    refine ⟨rfl, rfl, rfl, rfl, ?_, ?_⟩
    case _ =>
      intro u hu
      exact Except.noConfusion hu
    case _ =>
      intro e2 he
      injection he with h4
      subst h4
      rfl

/-- On the chunking branch (`size > 25`, duration readable) the body is the
chunk loop started at index 0 with the full chunk count. -/
lemma body_chunking_path (env : Env) (ap : String) (ts : List String) (s dur : ℚ)
    (h1 : step_extract env = Except.ok (ap, ts)) (h2 : env.size = Except.ok s)
    (h3 : 25 < s) (h4 : env.duration = Except.ok dur) :
    body env =
      ⟨(chunkLoop env ap (chunk_duration s dur) dur 0
          (num_chunks dur (chunk_duration s dur)) "" ts [] []).1,
       (chunkLoop env ap (chunk_duration s dur) dur 0
          (num_chunks dur (chunk_duration s dur)) "" ts [] []).2.1,
       (chunkLoop env ap (chunk_duration s dur) dur 0
          (num_chunks dur (chunk_duration s dur)) "" ts [] []).2.2.1,
       (chunkLoop env ap (chunk_duration s dur) dur 0
          (num_chunks dur (chunk_duration s dur)) "" ts [] []).2.2.2,
       true⟩ := by
  unfold body
  rw [h1, h2]
  dsimp only []
  rw [if_neg (not_le.mpr h3), h4]

/-- A chunk loop in which every extraction and every transcription succeeds
returns the space-terminated concatenation of the fragments in index order,
registers exactly the chunk files, calls the transcriber once per chunk, and
extracts exactly the planned ranges. -/
lemma chunkLoop_all_ok (env : Env) (ap : String) (cd : ℤ) (dur : ℚ)
    (tf : String → String)
    (hex : ∀ i, env.extractChunk i = Except.ok ())
    (htr : ∀ fn, env.transcribe fn = Except.ok (tf fn)) :
    ∀ (fuel i : ℕ) (acc : String) (temps calls : List String) (specs : List (ℚ × ℚ)),
    chunkLoop env ap cd dur i fuel acc temps calls specs =
      (Except.ok (acc ++ trailing_join ((chunkNames ap i fuel).map tf)),
       temps ++ chunkNames ap i fuel,
       calls ++ chunkNames ap i fuel,
       specs ++ chunkSpecsFrom cd dur i fuel) := by
  intro fuel
  induction fuel with
  | zero =>
    intro i acc temps calls specs
    simp [chunkLoop, chunkNames, chunkSpecsFrom, trailing_join]
  | succ fuel ih =>
    intro i acc temps calls specs
    simp only [chunkLoop, hex i, htr (chunkName ap i)]
    rw [ih (i + 1) (acc ++ tf (chunkName ap i) ++ " ")]
    simp [chunkNames, chunkSpecsFrom, trailing_join, String.append_assoc]

/-- On an error exit the run returns `None` and shows the originating error. -/
lemma run_error_trace (env : Env) (fs : FsState) (e : PyError)
    (h : (body env).res = Except.error e) :
    (process_and_transcribe env fs).result = none ∧
    (process_and_transcribe env fs).errorShown = some e := by
  rw [process_result, process_errorShown, h]
  exact ⟨rfl, rfl⟩

/-- The cleanup loop visits every registered temp file in order. -/
lemma cleanup_covers (fs : FsState) (temps : List String) :
    (cleanupRun fs temps).map (fun r => r.1) = temps := by
  induction temps with
  | nil => rfl
  | cons f rest ih => exact congrArg (List.cons f) ih

/-- Each cleanup record makes one deletion attempt when the file exists, none
otherwise, and leaves the file behind only if removal failed. -/
lemma cleanup_records (fs : FsState) (temps : List String) :
    ∀ r ∈ cleanupRun fs temps,
      r.2.1 = (if fs.pathExists r.1 then 1 else 0) ∧
      (r.2.2 = true → fs.pathExists r.1 = true ∧ fs.removeOk r.1 = false) := by
  intro r hr
  unfold cleanupRun at hr
  rcases List.mem_map.mp hr with ⟨f, hf, he⟩
  subst he
  refine ⟨rfl, ?_⟩
  intro hb
  simp only [Bool.and_eq_true, Bool.not_eq_true'] at hb
  exact hb

/-- The retry loop of the upload handler makes at most `fuel` attempts. -/
lemma robust_delete_go_le (o : Nat → DeleteOutcome) :
    ∀ (fuel i : ℕ), (robust_delete_go o i fuel).1 ≤ fuel := by
  intro fuel
  induction fuel with
  | zero => intro i; simp [robust_delete_go]
  | succ fuel ih =>
    intro i
    simp only [robust_delete_go]
    cases o i with
    | success => simp
    | otherError => simp
    | permissionError =>
      dsimp only []
      have h2 := ih (i + 1)
      omega


/-! ## Claim theorems -/

/-- C1: for every `totalSizeMB > 25` and `durationSeconds > 0`, the chunk plan
computed by the orchestrator (`chunkDuration = max(10, ⌊(20/size)·dur⌋)`,
`numChunks = ⌈dur/chunkDuration⌉`, spec `i` spanning
`[i·cd, min((i+1)·cd, dur))`) consists of contiguous, non-overlapping ranges
whose union equals `[0, dur)` exactly, each with start strictly below end, and
the last spec ends exactly at `dur`. -/
theorem C1_chunk_plan_covers (s d : ℚ) (hs : 25 < s) (hd : 0 < d) :
    chunk_plan s d ≠ [] ∧
    (∀ i, ∀ h : i < (chunk_plan s d).length,
      (chunk_plan s d).get ⟨i, h⟩ = chunk_spec (chunk_duration s d) d i) ∧
    (∀ p ∈ chunk_plan s d, 0 ≤ p.1 ∧ p.1 < p.2 ∧ p.2 ≤ d) ∧
    (∀ i, ∀ h : i + 1 < (chunk_plan s d).length,
      ((chunk_plan s d).get ⟨i + 1, h⟩).1 =
        ((chunk_plan s d).get ⟨i, Nat.lt_of_succ_lt h⟩).2) ∧
    (∀ h : 0 < (chunk_plan s d).length, ((chunk_plan s d).get ⟨0, h⟩).1 = 0) ∧
    (∀ h : 0 < (chunk_plan s d).length,
      ((chunk_plan s d).get
        ⟨(chunk_plan s d).length - 1, Nat.sub_lt h Nat.one_pos⟩).2 = d) ∧
    (∀ x : ℚ, (0 ≤ x ∧ x < d) ↔ ∃ p ∈ chunk_plan s d, p.1 ≤ x ∧ x < p.2) ∧
    (∀ i j, ∀ hi : i < (chunk_plan s d).length, ∀ hj : j < (chunk_plan s d).length,
      i < j →
      ((chunk_plan s d).get ⟨i, hi⟩).2 ≤ ((chunk_plan s d).get ⟨j, hj⟩).1) := by
  have hcd : 0 < chunk_duration s d := chunk_duration_pos s d
  have hcQ : (0 : ℚ) < ((chunk_duration s d : ℤ) : ℚ) := by exact_mod_cast hcd
  have hn : 0 < num_chunks d (chunk_duration s d) := num_chunks_pos d _ hcd hd
  have hlen : (chunk_plan s d).length = num_chunks d (chunk_duration s d) :=
    chunk_plan_length s d
  have hget := chunk_plan_get s d
  have hmem : ∀ p ∈ chunk_plan s d,
      ∃ i, i < num_chunks d (chunk_duration s d) ∧ p = chunk_spec (chunk_duration s d) d i := by
    intro p hp
    unfold chunk_plan at hp
    rcases List.mem_map.mp hp with ⟨i, hi, hpe⟩
    exact ⟨i, List.mem_range.mp hi, hpe.symm⟩
  have hspec_bounds : ∀ i, i < num_chunks d (chunk_duration s d) →
      0 ≤ (chunk_spec (chunk_duration s d) d i).1 ∧
      (chunk_spec (chunk_duration s d) d i).1 < (chunk_spec (chunk_duration s d) d i).2 ∧
      (chunk_spec (chunk_duration s d) d i).2 ≤ d := by
    intro i hi
    refine ⟨mul_nonneg (Nat.cast_nonneg i) (le_of_lt hcQ), ?_, min_le_right _ _⟩
    refine lt_min ?_ (start_lt_duration d _ hcd hd i hi)
    have h1 : (i : ℚ) < (i : ℚ) + 1 := by linarith
    exact (mul_lt_mul_right hcQ).mpr h1
  refine ⟨?_, hget, ?_, ?_, ?_, ?_, ?_, ?_⟩
  case _ =>
    have : 0 < (chunk_plan s d).length := by rw [hlen]; exact hn
    exact List.ne_nil_of_length_pos this
  case _ =>
    intro p hp
    rcases hmem p hp with ⟨i, hi, hpe⟩
    rw [hpe]
    exact hspec_bounds i hi
  case _ =>
    intro i h
    rw [hget (i + 1) h, hget i (Nat.lt_of_succ_lt h)]
    have hi1 : i + 1 < num_chunks d (chunk_duration s d) := by rw [hlen] at h; exact h
    have h2 : ((i : ℚ) + 1) * ((chunk_duration s d : ℤ) : ℚ) < d := by
      have := start_lt_duration d _ hcd hd (i + 1) hi1
      push_cast at this
      exact this
    simp only [chunk_spec]
    rw [min_eq_left (le_of_lt h2)]
    push_cast
    ring
  case _ =>
    intro h
    rw [hget 0 h]
    simp [chunk_spec]
  case _ =>
    intro h
    rw [hget _ (Nat.sub_lt h Nat.one_pos)]
    have h1 : 1 ≤ num_chunks d (chunk_duration s d) := hn
    have hcast : (((chunk_plan s d).length - 1 : ℕ) : ℚ) + 1 =
        ((num_chunks d (chunk_duration s d) : ℕ) : ℚ) := by
      rw [hlen]
      rw [Nat.cast_sub h1]
      push_cast
      ring
    simp only [chunk_spec]
    rw [hcast]
    exact min_eq_right (duration_le_num_chunks_mul d _ hcd hd)
  case _ =>
    intro x
    constructor
    case _ =>
      rintro ⟨hx0, hxd⟩
      rcases exists_covering_index d _ hcd hd x hx0 hxd with ⟨i, hi, h1, h2⟩
      have hi2 : i < (chunk_plan s d).length := by rw [hlen]; exact hi
      refine ⟨(chunk_plan s d).get ⟨i, hi2⟩, List.get_mem _ _ _, ?_⟩
      rw [hget i hi2]
      exact ⟨h1, h2⟩
    case _ =>
      rintro ⟨p, hp, hpx1, hpx2⟩
      rcases hmem p hp with ⟨i, hi, hpe⟩
      have hb := hspec_bounds i hi
      rw [hpe] at hpx1 hpx2
      rw [hpe] at hp
      exact ⟨le_trans hb.1 hpx1, lt_of_lt_of_le hpx2 hb.2.2⟩
  case _ =>
    intro i j hi hj hij
    rw [hget i hi, hget j hj]
    have hij1 : (i : ℚ) + 1 ≤ (j : ℚ) := by exact_mod_cast hij
    have h2 : ((i : ℚ) + 1) * ((chunk_duration s d : ℤ) : ℚ) ≤
        (j : ℚ) * ((chunk_duration s d : ℤ) : ℚ) :=
      mul_le_mul_of_nonneg_right hij1 (le_of_lt hcQ)
    exact le_trans (min_le_left _ _) h2


/-- C1 witness: the spec scenario `totalSizeMB = 100`, `durationSeconds = 3000`
satisfies the hypotheses and yields a nonempty plan. -/
theorem C1_chunk_plan_covers_witness :
    (25 : ℚ) < 100 ∧ (0 : ℚ) < 3000 ∧ chunk_plan 100 3000 ≠ [] :=
  ⟨by norm_num, by norm_num,
    (C1_chunk_plan_covers 100 3000 (by norm_num) (by norm_num)).1⟩

/-- C2: when the working audio artifact is at most 25 MB the orchestrator
makes exactly one transcription call, on the whole artifact, and performs no
chunk planning and no chunk extraction. -/
theorem C2_small_file_bypass (env : Env) (fs : FsState) (ap : String)
    (ts : List String) (s : ℚ)
    (h1 : step_extract env = Except.ok (ap, ts)) (h2 : env.size = Except.ok s)
    (h3 : s ≤ 25) :
    (process_and_transcribe env fs).calls = [ap] ∧
    (process_and_transcribe env fs).chunkingPath = false ∧
    (process_and_transcribe env fs).specs = [] := by
  have hb := body_small_path env ap ts s h1 h2 h3
  rw [process_calls, process_chunkingPath, process_specs]
  exact ⟨hb.1, hb.2.1, hb.2.2.1⟩

/-- C2 witness: a 10 MB audio upload is transcribed by a single direct call. -/
theorem C2_small_file_bypass_witness :
    (process_and_transcribe envSmall fsAllOk).calls = ["input"] ∧
    (process_and_transcribe envSmall fsAllOk).chunkingPath = false ∧
    (process_and_transcribe envSmall fsAllOk).specs = [] :=
  C2_small_file_bypass envSmall fsAllOk "input" [] 10
    (by with_unfolding_all rfl) (by with_unfolding_all rfl) (by norm_num)

/-- C3 counterexample: in the successful two-chunk run with fragments "a" and
"b" the code returns "a b " — the space-joined text plus a trailing space —
not the plain single-space join "a b" the claim states. -/
theorem C3_counterexample :
    (process_and_transcribe baseEnv fsAllOk).result = some "a b " ∧
    (process_and_transcribe baseEnv fsAllOk).calls.length = 2 ∧
    (process_and_transcribe baseEnv fsAllOk).result ≠ some "a b" := by
  have h : (process_and_transcribe baseEnv fsAllOk).result = some "a b " := by
    with_unfolding_all rfl
  refine ⟨h, by with_unfolding_all rfl, ?_⟩
  rw [h]
  decide

/-- C3 amended: in every successful multi-chunk run the transcript is the
chunk texts in index order, each followed by one single space — the
single-space join plus one trailing space (`full_transcript += text + " "`) —
and the transcription calls are the chunk files in index order. -/
theorem C3_amended_trailing_space (env : Env) (fs : FsState) (ap : String)
    (ts : List String) (s dur : ℚ) (tf : String → String)
    (h1 : step_extract env = Except.ok (ap, ts)) (h2 : env.size = Except.ok s)
    (h3 : 25 < s) (h4 : env.duration = Except.ok dur)
    (hex : ∀ i, env.extractChunk i = Except.ok ())
    (htr : ∀ fn, env.transcribe fn = Except.ok (tf fn)) :
    (process_and_transcribe env fs).result =
      some (trailing_join ((chunkNames ap 0
        (num_chunks dur (chunk_duration s dur))).map tf)) ∧
    (process_and_transcribe env fs).calls =
      chunkNames ap 0 (num_chunks dur (chunk_duration s dur)) := by
  have hb := body_chunking_path env ap ts s dur h1 h2 h3 h4
  have hl := chunkLoop_all_ok env ap (chunk_duration s dur) dur tf hex htr
    (num_chunks dur (chunk_duration s dur)) 0 "" ts [] []
  rw [hl] at hb
  rw [process_result, process_calls, hb]
  exact ⟨rfl, rfl⟩

/-- C3 amended witness: the concrete two-chunk run. -/
theorem C3_amended_trailing_space_witness :
    (process_and_transcribe baseEnv fsAllOk).result =
      some (trailing_join ((chunkNames "input" 0
        (num_chunks 20 (chunk_duration 30 20))).map
          (fun fn => if fn == "input_part_0.mp3" then "a" else "b"))) ∧
    (process_and_transcribe baseEnv fsAllOk).calls =
      chunkNames "input" 0 (num_chunks 20 (chunk_duration 30 20)) :=
  C3_amended_trailing_space baseEnv fsAllOk "input" [] 30 20
    (fun fn => if fn == "input_part_0.mp3" then "a" else "b")
    (by with_unfolding_all rfl) rfl (by norm_num) rfl
    (fun _ => rfl) (fun _ => rfl)

/-- C4: any error raised by a pipeline step aborts the run with no transcript
returned (`None`), the originating error is surfaced through the error
display, and the cleanup loop still visits every temp artifact registered
during the run, leaving a file behind only when its deletion attempt failed. -/
theorem C4_abort_cleanup_surface (env : Env) (fs : FsState) (e : PyError)
    (h : (body env).res = Except.error e) :
    (process_and_transcribe env fs).result = none ∧
    (process_and_transcribe env fs).errorShown = some e ∧
    ((process_and_transcribe env fs).cleanup.map (fun r => r.1) =
      (process_and_transcribe env fs).temps) ∧
    (∀ r ∈ (process_and_transcribe env fs).cleanup,
      r.2.1 = (if fs.pathExists r.1 then 1 else 0) ∧
      (r.2.2 = true → fs.pathExists r.1 = true ∧ fs.removeOk r.1 = false)) := by
  have h1 := run_error_trace env fs e h
  refine ⟨h1.1, h1.2, ?_, ?_⟩
  case _ =>
    rw [process_cleanup, process_temps]
    exact cleanup_covers fs (body env).temps
  case _ =>
    rw [process_cleanup]
    exact cleanup_records fs (body env).temps

/-- C4 witness: the run whose second chunk transcription hits a quota error. -/
theorem C4_abort_cleanup_surface_witness :
    (process_and_transcribe envQuota fsAllOk).result = none ∧
    (process_and_transcribe envQuota fsAllOk).errorShown =
      some (PyError.apiError "quota") :=
  ⟨(C4_abort_cleanup_surface envQuota fsAllOk (PyError.apiError "quota")
      (by with_unfolding_all rfl)).1,
   (C4_abort_cleanup_surface envQuota fsAllOk (PyError.apiError "quota")
      (by with_unfolding_all rfl)).2.1⟩

/-- C5: for every `totalSizeMB > 25` and `durationSeconds ≥ 0` the computed
chunk duration is at least 10 seconds, including when the proportional
duration floors to 0. -/
theorem C5_chunk_duration_floor (s d : ℚ) (h1 : 25 < s) (h2 : 0 ≤ d) :
    10 ≤ chunk_duration s d :=
  chunk_duration_ge_ten s d

/-- C5 witness: at size 30 and duration 0 the proportional duration floors to
0 and the chunk duration is still clamped to 10. -/
theorem C5_chunk_duration_floor_witness :
    (25 : ℚ) < 30 ∧ (0 : ℚ) ≤ 0 ∧ 10 ≤ chunk_duration 30 0 ∧
      Int.floor ((20 / (30 : ℚ)) * 0) = 0 :=
  ⟨by norm_num, le_refl 0, C5_chunk_duration_floor 30 0 (by norm_num) (le_refl 0),
    by with_unfolding_all rfl⟩

/-- C6: with `durationSeconds = 0` on the chunking path the plan is empty,
zero transcription calls are made, and the run completes without error with
the empty string as the transcript. -/
theorem C6_zero_duration_empty (env : Env) (fs : FsState) (ap : String)
    (ts : List String) (s : ℚ)
    (h1 : step_extract env = Except.ok (ap, ts)) (h2 : env.size = Except.ok s)
    (h3 : 25 < s) (h4 : env.duration = Except.ok 0) :
    num_chunks 0 (chunk_duration s 0) = 0 ∧
    (process_and_transcribe env fs).result = some "" ∧
    (process_and_transcribe env fs).calls = [] ∧
    (process_and_transcribe env fs).specs = [] ∧
    (process_and_transcribe env fs).errorShown = none := by
  have hb := body_chunking_path env ap ts s 0 h1 h2 h3 h4
  have hz : num_chunks 0 (chunk_duration s 0) = 0 := num_chunks_zero_duration _
  rw [hz] at hb
  have hl : chunkLoop env ap (chunk_duration s 0) 0 0 0 "" ts [] [] =
      (Except.ok "", ts, [], []) := rfl
  rw [hl] at hb
  refine ⟨hz, ?_, ?_, ?_, ?_⟩
  case _ => rw [process_result, hb]
  case _ => rw [process_calls, hb]
  case _ => rw [process_specs, hb]
  case _ => rw [process_errorShown, hb]

/-- C6 witness: the 30 MB zero-duration run. -/
theorem C6_zero_duration_empty_witness :
    num_chunks 0 (chunk_duration 30 0) = 0 ∧
    (process_and_transcribe envZeroDur fsAllOk).result = some "" ∧
    (process_and_transcribe envZeroDur fsAllOk).calls = [] ∧
    (process_and_transcribe envZeroDur fsAllOk).specs = [] ∧
    (process_and_transcribe envZeroDur fsAllOk).errorShown = none :=
  C6_zero_duration_empty envZeroDur fsAllOk "input" [] 30
    (by with_unfolding_all rfl) rfl (by norm_num) rfl

/-- C7 counterexample: a 0 MB working artifact satisfies `0 ≤ 25`, so the run
takes the small-file branch: one direct transcription call, no planning, no
error of any kind is raised — contradicting the claim that planning fails
with a `PlanningError` (no such error path exists in the code). -/
theorem C7_counterexample :
    (process_and_transcribe envZeroSize fsAllOk).errorShown = none ∧
    (process_and_transcribe envZeroSize fsAllOk).chunkingPath = false ∧
    (process_and_transcribe envZeroSize fsAllOk).calls = ["input"] ∧
    (process_and_transcribe envZeroSize fsAllOk).result = some "hello" := by
  refine ⟨?_, ?_, ?_, ?_⟩ <;> with_unfolding_all rfl

/-- C7 amended: when `totalSizeMB = 0` the size check routes the run to the
small-file branch (`0 ≤ 25`): exactly one direct transcription call on the
whole artifact, no planning, no chunk extraction, and — when that call
succeeds — no error is raised; no division by the size ever happens. -/
theorem C7_amended_zero_size (env : Env) (fs : FsState) (ap : String)
    (ts : List String)
    (h1 : step_extract env = Except.ok (ap, ts)) (h2 : env.size = Except.ok 0) :
    (process_and_transcribe env fs).chunkingPath = false ∧
    (process_and_transcribe env fs).calls = [ap] ∧
    (process_and_transcribe env fs).specs = [] ∧
    (∀ t, env.transcribe ap = Except.ok t →
      (process_and_transcribe env fs).result = some t ∧
      (process_and_transcribe env fs).errorShown = none) := by
  have hb := body_small_path env ap ts 0 h1 h2 (by norm_num)
  rw [process_chunkingPath, process_calls, process_specs]
  refine ⟨hb.2.1, hb.1, hb.2.2.1, ?_⟩
  intro t ht
  have hres := hb.2.2.2.2.1 t ht
  rw [process_result, process_errorShown, hres]
  exact ⟨rfl, rfl⟩

/-- C7 amended witness: the concrete 0 MB run transcribed as "hello". -/
theorem C7_amended_zero_size_witness :
    (process_and_transcribe envZeroSize fsAllOk).chunkingPath = false ∧
    (process_and_transcribe envZeroSize fsAllOk).calls = ["input"] :=
  ⟨(C7_amended_zero_size envZeroSize fsAllOk "input" []
      (by with_unfolding_all rfl) rfl).1,
   (C7_amended_zero_size envZeroSize fsAllOk "input" []
      (by with_unfolding_all rfl) rfl).2.1⟩

/-- C8: for every transcript text and every failure of the remote
text-generation call, `diarize_with_gpt4` swallows the error and returns the
original transcript text unchanged (fail-open). -/
theorem C8_fail_open (transcript_text : String) (e : PyError) :
    diarize_with_gpt4 (Except.error e) transcript_text = transcript_text := rfl

/-- C9 counterexample: in the successful two-chunk run whose temp files are
locked at cleanup time, each run-registered chunk file receives exactly one
deletion attempt — not the claimed 3 retries — and is left behind, while the
run's result is unaffected. -/
theorem C9_counterexample :
    (process_and_transcribe baseEnv fsLocked).cleanup =
      [("input_part_0.mp3", 1, true), ("input_part_1.mp3", 1, true)] ∧
    (process_and_transcribe baseEnv fsLocked).result = some "a b " ∧
    (1 : ℕ) ≠ 3 :=
  ⟨by with_unfolding_all rfl, by with_unfolding_all rfl, by decide⟩

/-- C9 amended: the bounded 3-attempt 1 s backoff retry applies only to the
uploaded temp file deleted by the tab handlers (`robust_delete`): it makes at
most 3 attempts, exactly 3 under persistent `PermissionError`, then gives up
silently. Temp artifacts registered during the run get at most one deletion
attempt each in the `finally` block, and in both places the deletion outcome
never surfaces: result and error display are independent of the filesystem's
cleanup behaviour. -/
theorem C9_amended_retry (o : Nat → DeleteOutcome) (env : Env)
    (fs fs2 : FsState)
    (hperm : ∀ i, o i = DeleteOutcome.permissionError) :
    (robust_delete o).1 ≤ 3 ∧
    robust_delete o = (3, false) ∧
    (∀ r ∈ (process_and_transcribe env fs).cleanup, r.2.1 ≤ 1) ∧
    (process_and_transcribe env fs).result =
      (process_and_transcribe env fs2).result ∧
    (process_and_transcribe env fs).errorShown =
      (process_and_transcribe env fs2).errorShown := by
  refine ⟨robust_delete_go_le o 3 0, ?_, ?_, rfl, rfl⟩
  case _ =>
    unfold robust_delete
    simp [robust_delete_go, hperm 0, hperm 1, hperm 2]
  case _ =>
    intro r hr
    rw [process_cleanup] at hr
    have h2 := (cleanup_records fs (body env).temps r hr).1
    rw [h2]
    split <;> omega

/-- C9 amended witness: persistent lock contention on the uploaded file gives
3 silent attempts; a locked filesystem does not change the run's result. -/
theorem C9_amended_retry_witness :
    robust_delete (fun _ => DeleteOutcome.permissionError) = (3, false) ∧
    (process_and_transcribe baseEnv fsLocked).result =
      (process_and_transcribe baseEnv fsAllOk).result :=
  ⟨(C9_amended_retry (fun _ => DeleteOutcome.permissionError) baseEnv fsLocked
      fsAllOk (fun _ => rfl)).2.1,
   (C9_amended_retry (fun _ => DeleteOutcome.permissionError) baseEnv fsLocked
      fsAllOk (fun _ => rfl)).2.2.2.1⟩

/-- C10: the public interface conflates an empty transcript with failure:
`process_and_transcribe` returns `None` on any error and the empty string on a
zero-duration chunking run, and the tab-1 handler gates on Python truthiness,
under which both values are falsy — a successful empty transcript produces no
displayed or downloadable output, exactly like a failed run. -/
theorem C10_empty_equals_failure :
    (∀ (env : Env) (fs : FsState) (e : PyError),
      (body env).res = Except.error e →
      (process_and_transcribe env fs).result = none) ∧
    (process_and_transcribe envUnreadable fsAllOk).result = none ∧
    (process_and_transcribe envEmptyOut fsAllOk).result = some "" ∧
    (process_and_transcribe envEmptyOut fsAllOk).errorShown = none ∧
    tab1_result false (Except.ok [])
      (process_and_transcribe envUnreadable fsAllOk).result = none ∧
    tab1_result false (Except.ok [])
      (process_and_transcribe envEmptyOut fsAllOk).result = none ∧
    displayed (tab1_result false (Except.ok [])
        (process_and_transcribe envEmptyOut fsAllOk).result) =
      displayed (tab1_result false (Except.ok [])
        (process_and_transcribe envUnreadable fsAllOk).result) := by
  refine ⟨fun env fs e h => (run_error_trace env fs e h).1, ?_, ?_, ?_, ?_, ?_, ?_⟩
  all_goals with_unfolding_all rfl

/-- C10 witness: the unreadable-container run returns `None`. -/
theorem C10_empty_equals_failure_witness :
    (process_and_transcribe envUnreadable fsAllOk).result = none :=
  C10_empty_equals_failure.1 envUnreadable fsAllOk (PyError.mediaError "unreadable")
    (by with_unfolding_all rfl)

end ReadTheLips
